import Mathlib

/-!
Verification development for the `skipper_cloud_watch` log correlation and
statistics engine.

The definitions below are a shallow embedding of the Python sources
`src/cloudwatch.py` and `src/skipper_cloud_watch_parser.py`:

* pure Python functions become Lean functions;
* the stateful CSV fold in `CloudwatchStats.parse_logs` becomes an explicit
  state type (`AggState`) and a fold (`foldRow` / `parse_logs`);
* Python exceptions become `Except String`;
* latency values (Python `float(...)` of decimal strings) are modelled as
  rationals `ℚ`: every comparison performed by the source
  (`> 0.000001`, `> 2`, `> 5`, `> 10`) agrees with exact rational
  comparison on the decimal literals the program manipulates;
* `ast.literal_eval` (Python standard library, not part of this repository)
  is modelled by `literal_eval`, a recursive-descent parser for the fragment
  of Python literals the logs exercise: single or double quoted strings
  (without escape sequences), integers, lists and dicts.  Inputs outside
  this fragment are parse errors, exactly as malformed literals are for
  `ast.literal_eval`.
-/

/-! ## Generic string helpers (model of Python `in` on strings) -/

/-- Python `needle in hay` substring test. -/
def strContains (hay needle : String) : Bool :=
  hay.data.tails.any (fun t => needle.data.isPrefixOf t)

/-! ## Aggregator data model (`EndPoint`, `Service` dataclasses, cloudwatch.py) -/

/-- `EndPoint` dataclass of cloudwatch.py (field order as in the source;
`avg_latency` is declared there but never updated by `parse_logs`). -/
structure EndPoint where
  name : String
  avg_latency : ℚ := 0
  latency : List ℚ := []
  count : Nat := 0
  errors : Nat := 0
deriving DecidableEq

/-- `Service` dataclass of cloudwatch.py: one `EndPoint` per known operation
plus top-level count/error/latency. -/
structure Service where
  name : String
  rate_calendar : EndPoint
  availability : EndPoint
  room_details : EndPoint
  addons : EndPoint
  package : EndPoint
  room_rate : EndPoint
  make_reservation : EndPoint
  get_reservation : EndPoint
  cancel_reservation : EndPoint
  modify_reservation : EndPoint
  get_pricing_info : EndPoint
  avg_latency : ℚ := 0
  latency : List ℚ := []
  count : Nat := 0
  errors : Nat := 0
deriving DecidableEq

/-- One CSV data row of a `full_logs` file as read by `parse_logs`:
`file[i][1]` = hotel code, `file[i][2]` = service, `file[i][3]` = operation,
`file[i][4]` = end-to-end latency (already parsed by `float`, modelled `ℚ`). -/
structure Row where
  hotel_code : String
  service : String
  operation : String
  latency : ℚ
deriving DecidableEq

/-- The validity epsilon `0.000001` of the latency checks in `parse_logs`,
given directly as the rational with numerator 1 and denominator 10^6 (the
expression `1 / 1000000` denotes the same rational — see `eps_eq_div` — but
rational division does not reduce in the kernel, which concrete evaluations
below rely on). -/
def eps : ℚ := ⟨1, 1000000, by norm_num, by norm_num⟩

/-- The keys of the fixed `services` dict built by `parse_logs`. -/
def knownServices : List String := ["windsurfer", "sabre", "oracle"]

/-- The operation names that appear as cases of the `match file[i][3]`
dispatch in `parse_logs`, in source order. -/
def knownOps : List String :=
  ["GetRateCalendar", "GetAvailability", "GetRoomDetails", "GetAddons",
   "GetPackage", "GetRoomRate", "MakeReservation", "GetReservation",
   "CancelReservation", "ModifyReservation", "GetPricingInfo"]

/-- A `Service` value as freshly constructed in `parse_logs` (both the three
fixed entries and the lazily created per-hotel entries share this shape). -/
def freshService (name : String) : Service where
  name := name
  rate_calendar := { name := "rate_calendar" }
  availability := { name := "availability" }
  room_details := { name := "room_details" }
  addons := { name := "addons" }
  package := { name := "package" }
  room_rate := { name := "room_rate" }
  make_reservation := { name := "make_reservation" }
  get_reservation := { name := "get_reservation" }
  cancel_reservation := { name := "cancel_reservation" }
  modify_reservation := { name := "modify_reservation" }
  get_pricing_info := { name := "get_pricing_info" }

/-- `endpoint.count += 1`. -/
def bumpCount (e : EndPoint) : EndPoint := { e with count := e.count + 1 }

/-- `endpoint.latency.append(v)`. -/
def epAddLat (e : EndPoint) (v : ℚ) : EndPoint := { e with latency := e.latency ++ [v] }

/-- `endpoint.errors += 1`. -/
def epAddErr (e : EndPoint) : EndPoint := { e with errors := e.errors + 1 }

/-- The `match file[i][3]` dispatch of `parse_logs`, as applied to one
`Service` object (the source applies the identical statement sequence to the
aliased global `service` object and to `hotel_codes[hotel_code]`, two always
distinct objects, so the per-object effect is this single function).  Note
the `"GetPricingInfo"` case of the source has no `else` branch, and
operations outside the table fall through the `match` without effect. -/
def opUpdate (op : String) (lat : ℚ) (sv : Service) : Service :=
  match op with
  | "GetRateCalendar" =>
    let sv := { sv with rate_calendar := bumpCount sv.rate_calendar }
    if lat > eps then
      { sv with latency := sv.latency ++ [lat], rate_calendar := epAddLat sv.rate_calendar lat }
    else
      { sv with errors := sv.errors + 1, rate_calendar := epAddErr sv.rate_calendar }
  | "GetAvailability" =>
    let sv := { sv with availability := bumpCount sv.availability }
    if lat > eps then
      { sv with latency := sv.latency ++ [lat], availability := epAddLat sv.availability lat }
    else
      { sv with errors := sv.errors + 1, availability := epAddErr sv.availability }
  | "GetRoomDetails" =>
    let sv := { sv with room_details := bumpCount sv.room_details }
    if lat > eps then
      { sv with latency := sv.latency ++ [lat], room_details := epAddLat sv.room_details lat }
    else
      { sv with errors := sv.errors + 1, room_details := epAddErr sv.room_details }
  | "GetAddons" =>
    let sv := { sv with addons := bumpCount sv.addons }
    if lat > eps then
      { sv with latency := sv.latency ++ [lat], addons := epAddLat sv.addons lat }
    else
      { sv with errors := sv.errors + 1, addons := epAddErr sv.addons }
  | "GetPackage" =>
    let sv := { sv with package := bumpCount sv.package }
    if lat > eps then
      { sv with latency := sv.latency ++ [lat], package := epAddLat sv.package lat }
    else
      { sv with errors := sv.errors + 1, package := epAddErr sv.package }
  | "GetRoomRate" =>
    let sv := { sv with room_rate := bumpCount sv.room_rate }
    if lat > eps then
      { sv with latency := sv.latency ++ [lat], room_rate := epAddLat sv.room_rate lat }
    else
      { sv with errors := sv.errors + 1, room_rate := epAddErr sv.room_rate }
  | "MakeReservation" =>
    let sv := { sv with make_reservation := bumpCount sv.make_reservation }
    if lat > eps then
      { sv with latency := sv.latency ++ [lat], make_reservation := epAddLat sv.make_reservation lat }
    else
      { sv with errors := sv.errors + 1, make_reservation := epAddErr sv.make_reservation }
  | "GetReservation" =>
    let sv := { sv with get_reservation := bumpCount sv.get_reservation }
    if lat > eps then
      { sv with latency := sv.latency ++ [lat], get_reservation := epAddLat sv.get_reservation lat }
    else
      { sv with errors := sv.errors + 1, get_reservation := epAddErr sv.get_reservation }
  | "CancelReservation" =>
    let sv := { sv with cancel_reservation := bumpCount sv.cancel_reservation }
    if lat > eps then
      { sv with latency := sv.latency ++ [lat], cancel_reservation := epAddLat sv.cancel_reservation lat }
    else
      { sv with errors := sv.errors + 1, cancel_reservation := epAddErr sv.cancel_reservation }
  | "ModifyReservation" =>
    let sv := { sv with modify_reservation := bumpCount sv.modify_reservation }
    if lat > eps then
      { sv with latency := sv.latency ++ [lat], modify_reservation := epAddLat sv.modify_reservation lat }
    else
      { sv with errors := sv.errors + 1, modify_reservation := epAddErr sv.modify_reservation }
  | "GetPricingInfo" =>
    let sv := { sv with get_pricing_info := bumpCount sv.get_pricing_info }
    if lat > eps then
      { sv with latency := sv.latency ++ [lat], get_pricing_info := epAddLat sv.get_pricing_info lat }
    else
      sv
  | _ => sv

/-- Aggregation state of `parse_logs`: the fixed `services` dict with its
three keys, and the insertion-ordered `hotel_codes` dict. -/
structure AggState where
  ws : Service
  sabre : Service
  oracle : Service
  hotel_codes : List (String × Service)
deriving DecidableEq

/-- `services[s]` for the three fixed keys. -/
def getService (st : AggState) (s : String) : Service :=
  if s = "windsurfer" then st.ws
  else if s = "sabre" then st.sabre
  else st.oracle

/-- Write back to `services[s]` for the three fixed keys. -/
def setService (st : AggState) (s : String) (sv : Service) : AggState :=
  if s = "windsurfer" then { st with ws := sv }
  else if s = "sabre" then { st with sabre := sv }
  else { st with oracle := sv }

/-- Update the (unique) binding of key `k` in an insertion-ordered
association list, as mutation of `hotel_codes[k]` does. -/
def assocUpdate (k : String) (f : Service → Service) :
    List (String × Service) → List (String × Service)
  | [] => []
  | (k', v) :: rest =>
    if k' = k then (k', f v) :: rest else (k', v) :: assocUpdate k f rest

/-- The full per-object effect of one accepted row on a stats object:
`count += 1` (before the `match`) followed by the operation dispatch. -/
def rowStep (r : Row) (sv : Service) : Service :=
  opUpdate r.operation r.latency { sv with count := sv.count + 1 }

/-- One iteration of the row loop of `parse_logs` (lines 449-611 of
cloudwatch.py).  Rows whose service column is not a key of `services` are
skipped; otherwise the source increments `service.count`, lazily creates
`hotel_codes[hotel_code]` (named after `service.name`), increments its
count, and dispatches on the operation against both objects.  The global
service object and the hotel entry are always distinct objects, so the
interleaved statement sequence of the source groups into one `rowStep`
application per object. -/
def foldRow (st : AggState) (r : Row) : AggState :=
  if knownServices.contains r.service then
    let svName := (getService st r.service).name
    let hcs :=
      if (st.hotel_codes.lookup r.hotel_code).isSome then st.hotel_codes
      else st.hotel_codes ++ [(r.hotel_code, freshService svName)]
    let st' := setService st r.service (rowStep r (getService st r.service))
    { st' with hotel_codes := assocUpdate r.hotel_code (rowStep r) hcs }
  else st

/-- The initial aggregation state of `parse_logs`: the three explicitly
constructed `Service` objects and an empty `hotel_codes` dict. -/
def initState : AggState where
  ws := freshService "windsurfer"
  sabre := freshService "sabre"
  oracle := freshService "oracle"
  hotel_codes := []

/-- The aggregation fold of `CloudwatchStats.parse_logs` over the
concatenated data rows of all input CSV files (the header row of each file
is skipped by the source's `range(1, len(file))`). -/
def parse_logs (rows : List Row) : AggState :=
  rows.foldl foldRow initState

/-! ### Invariant and helper predicates for the aggregation claims -/

/-- `count == len(latencies) + error_count` for one `EndPoint`. -/
def epInv (e : EndPoint) : Prop := e.count = e.latency.length + e.errors

instance (e : EndPoint) : Decidable (epInv e) := by unfold epInv; infer_instance

/-- `count == len(latencies) + error_count` for a `Service` and all eleven
of its endpoint buckets. -/
def svInv (sv : Service) : Prop :=
  sv.count = sv.latency.length + sv.errors ∧
  epInv sv.rate_calendar ∧ epInv sv.availability ∧ epInv sv.room_details ∧
  epInv sv.addons ∧ epInv sv.package ∧ epInv sv.room_rate ∧
  epInv sv.make_reservation ∧ epInv sv.get_reservation ∧
  epInv sv.cancel_reservation ∧ epInv sv.modify_reservation ∧
  epInv sv.get_pricing_info

instance (sv : Service) : Decidable (svInv sv) := by unfold svInv; infer_instance

/-- The invariant for every `ServiceStats` in the aggregation state:
the three global rollups and every per-tenant entry. -/
def stateInv (st : AggState) : Prop :=
  svInv st.ws ∧ svInv st.sabre ∧ svInv st.oracle ∧
  ∀ p ∈ st.hotel_codes, svInv p.2

instance (st : AggState) : Decidable (stateInv st) := by
  unfold stateInv; infer_instance

/-- A row whose fold step records exactly one latency sample or one error in
each bucket whose count it increments: its operation is in the dispatch
table and, if the operation is `GetPricingInfo`, its latency is valid. -/
def goodRow (r : Row) : Prop :=
  r.operation ∈ knownOps ∧ (r.operation = "GetPricingInfo" → r.latency > eps)

instance (r : Row) : Decidable (goodRow r) := by unfold goodRow; infer_instance

/-- The endpoint bucket of a `Service` addressed by an operation name of the
dispatch table (projection used only to state theorems). -/
def epOf (op : String) (sv : Service) : EndPoint :=
  match op with
  | "GetRateCalendar" => sv.rate_calendar
  | "GetAvailability" => sv.availability
  | "GetRoomDetails" => sv.room_details
  | "GetAddons" => sv.addons
  | "GetPackage" => sv.package
  | "GetRoomRate" => sv.room_rate
  | "MakeReservation" => sv.make_reservation
  | "GetReservation" => sv.get_reservation
  | "CancelReservation" => sv.cancel_reservation
  | "ModifyReservation" => sv.modify_reservation
  | "GetPricingInfo" => sv.get_pricing_info
  | _ => { name := "" }

/-- The first row that triggers lazy creation of the per-tenant entry for a
given hotel code: the first row with a known service and that hotel code. -/
def firstTrigger (rows : List Row) (hc : String) : Option Row :=
  rows.find? (fun r => knownServices.contains r.service && r.hotel_code == hc)

/-! ## Model of `ast.literal_eval` (Python standard library)

`literal_eval` below is a recursive-descent parser (with a fuel argument
ample for any input it is applied to) for the fragment of Python literals
the log payloads exercise: quoted strings, integers, lists and dicts.
A string that is not a complete literal of this fragment is a parse error,
as it is for `ast.literal_eval`. -/

/-- Values of the Python-literal fragment. -/
inductive PyLit where
  | pstr : String → PyLit
  | pint : Int → PyLit
  | pdict : List (PyLit × PyLit) → PyLit
  | plist : List PyLit → PyLit

/-- The single-quote character. -/
def squo : Char := Char.ofNat 39

/-- The double-quote character. -/
def dquo : Char := Char.ofNat 34

/-- Drop leading whitespace. -/
def skipWs : List Char → List Char
  | c :: cs => if c = ' ' ∨ c = '\n' ∨ c = '\t' ∨ c = '\r' then skipWs cs else c :: cs
  | [] => []

/-- Scan a quoted string body up to the closing quote `q`. -/
def scanStr (q : Char) : List Char → Option (List Char × List Char)
  | [] => none
  | c :: cs =>
    if c = q then some ([], cs)
    else (scanStr q cs).map (fun p => (c :: p.1, p.2))

/-- Split a leading run of decimal digits. -/
def scanDigits : List Char → List Char × List Char
  | c :: cs =>
    if c.isDigit then
      let p := scanDigits cs
      (c :: p.1, p.2)
    else ([], c :: cs)
  | [] => ([], [])

/-- Numeric value of a digit run. -/
def digitsVal (ds : List Char) : Nat :=
  ds.foldl (fun n d => n * 10 + (d.toNat - 48)) 0

mutual

/-- Parse one literal, returning it and the unconsumed remainder. -/
def parseLit : Nat → List Char → Except String (PyLit × List Char)
  | 0, _ => Except.error "fuel exhausted"
  | fuel + 1, cs =>
    match skipWs cs with
    | [] => Except.error "malformed literal"
    | c :: rest =>
      if c = squo ∨ c = dquo then
        match scanStr c rest with
        | some (s, r) => Except.ok (PyLit.pstr (String.mk s), r)
        | none => Except.error "malformed literal"
      else if c = '{' then parseDictItems fuel rest []
      else if c = '[' then parseListItems fuel rest []
      else if c = '-' ∨ c.isDigit then
        let body := if c = '-' then rest else c :: rest
        match scanDigits body with
        | ([], _) => Except.error "malformed literal"
        | (ds, r) =>
          let n : Int := digitsVal ds
          Except.ok (PyLit.pint (if c = '-' then -n else n), r)
      else Except.error "malformed literal"

/-- Parse the items of a dict literal after its opening brace. -/
def parseDictItems : Nat → List Char → List (PyLit × PyLit) →
    Except String (PyLit × List Char)
  | 0, _, _ => Except.error "fuel exhausted"
  | fuel + 1, cs, acc =>
    match skipWs cs with
    | [] => Except.error "malformed literal"
    | c :: rest =>
      if c = '}' ∧ acc.isEmpty then Except.ok (PyLit.pdict [], rest)
      else
        match parseLit fuel (c :: rest) with
        | Except.error e => Except.error e
        | Except.ok (k, r1) =>
          match skipWs r1 with
          | c2 :: r2 =>
            if c2 = ':' then
              match parseLit fuel r2 with
              | Except.error e => Except.error e
              | Except.ok (v, r3) =>
                match skipWs r3 with
                | c3 :: r4 =>
                  if c3 = ',' then parseDictItems fuel r4 (acc ++ [(k, v)])
                  else if c3 = '}' then Except.ok (PyLit.pdict (acc ++ [(k, v)]), r4)
                  else Except.error "malformed literal"
                | [] => Except.error "malformed literal"
            else Except.error "malformed literal"
          | [] => Except.error "malformed literal"

/-- Parse the items of a list literal after its opening bracket. -/
def parseListItems : Nat → List Char → List PyLit →
    Except String (PyLit × List Char)
  | 0, _, _ => Except.error "fuel exhausted"
  | fuel + 1, cs, acc =>
    match skipWs cs with
    | [] => Except.error "malformed literal"
    | c :: rest =>
      if c = ']' ∧ acc.isEmpty then Except.ok (PyLit.plist [], rest)
      else
        match parseLit fuel (c :: rest) with
        | Except.error e => Except.error e
        | Except.ok (v, r1) =>
          match skipWs r1 with
          | c2 :: r2 =>
            if c2 = ',' then parseListItems fuel r2 (acc ++ [v])
            else if c2 = ']' then Except.ok (PyLit.plist (acc ++ [v]), r2)
            else Except.error "malformed literal"
          | [] => Except.error "malformed literal"

end

/-- Model of `ast.literal_eval`: the whole string must be one literal. -/
def literal_eval (s : String) : Except String PyLit :=
  match parseLit (2 * s.length + 4) s.data with
  | Except.error e => Except.error e
  | Except.ok (v, rest) =>
    if (skipWs rest).isEmpty then Except.ok v else Except.error "malformed literal"

/-- `d.get(k, None)` on the key/value pairs of a dict literal, for a string
key (the keys the source looks up are all strings). -/
def pyDictFind (kvs : List (PyLit × PyLit)) (k : String) : Option PyLit :=
  (kvs.find? (fun kv =>
    match kv.1 with
    | PyLit.pstr s => s == k
    | _ => false)).map (fun kv => kv.2)

/-- `obj[k]` for a string key: `KeyError` when a dict lacks the key,
`TypeError` when the value is not a dict. -/
def pySub (v : PyLit) (k : String) : Except String PyLit :=
  match v with
  | PyLit.pdict kvs =>
    match pyDictFind kvs k with
    | some x => Except.ok x
    | none => Except.error "KeyError"
  | _ => Except.error "TypeError"

/-! ## `extract_hotel_code_from_log` (cloudwatch.py, lines 217-257) -/

/-- The outermost-brace scan of `extract_hotel_code_from_log`: walk the
characters with a counter (`Int`, as Python's may go negative on a stray
closing brace), recording `start_index` at an opening brace seen at depth 0
and breaking with `end_index` when the counter returns to 0. -/
def braceScanAux : List Char → Int → Nat → Option Nat → Option Nat × Option Nat
  | [], _, _, s => (s, none)
  | c :: cs, ctr, i, s =>
    if c = '{' then
      braceScanAux cs (ctr + 1) (i + 1) (if ctr = 0 then some i else s)
    else if c = '}' then
      if ctr - 1 = 0 then (s, some i)
      else braceScanAux cs (ctr - 1) (i + 1) s
    else braceScanAux cs ctr (i + 1) s

/-- `extract_hotel_code_from_log`: extract the portion inside the outermost
curly braces, literal-parse it, and chase
`hotel` / `availabilityRequest.hotel` / `reservationDetails.hotel` down to
`imsHotelId`.  Returns `none` for Python's `return None` (all three keys
absent); any exception of the source (mismatched braces, literal parse
failure, `.get` on a non-dict, missing subscript key) is an `error`. -/
def extract_hotel_code_from_log (message : String) : Except String (Option PyLit) :=
  match braceScanAux message.data 0 0 none with
  | (some s, some e) =>
    let content := String.mk ((message.data.drop s).take (e + 1 - s))
    match literal_eval content with
    | Except.error err => Except.error err
    | Except.ok d =>
      match d with
      | PyLit.pdict kvs =>
        match pyDictFind kvs "hotel" with
        | some hotel => (pySub hotel "imsHotelId").map some
        | none =>
          match pyDictFind kvs "availabilityRequest" with
          | some ar =>
            match pySub ar "hotel" with
            | Except.error err => Except.error err
            | Except.ok hotel => (pySub hotel "imsHotelId").map some
          | none =>
            match pyDictFind kvs "reservationDetails" with
            | some rd =>
              match pySub rd "hotel" with
              | Except.error err => Except.error err
              | Except.ok hotel => (pySub hotel "imsHotelId").map some
            | none => Except.ok none
      | _ => Except.error "AttributeError"
  | _ => Except.error ("Mismatched curly braces for content: " ++ message)

/-! ## `CloudwatchStats.get_log_stats` (cloudwatch.py, lines 302-385)

A `CwLog` carries the projections of a decoded log event that
`get_log_stats` reads: `formatted_message.request_uuid`,
`formatted_message.function` (the payload's `calling_function`),
the payload's `stats` block (outer `none` = absent or empty dict, inner
value = `str(stats.get("time", "0"))`), and the payload's `"message"`
text (indexed directly by the source, so modelled as always present).
`formatted_message.service` is not stored: `_parse_formatted_message`
derives it from `calling_function` (see `deriveService`). -/

structure CwLog where
  time : Nat
  messageType : String
  callingFunction : Option String
  requestUuid : Option String
  stats : Option (Option String)
  msgText : String
deriving DecidableEq

/-- Service derivation of `CloudwatchLog._parse_formatted_message`
(cloudwatch.py, lines 130-145): if `calling_function` is truthy, the first
of the known service names occurring in it as a substring, else `None`. -/
def deriveService (callingFunction : Option String) : Option String :=
  match callingFunction with
  | none => none
  | some cf => if cf = "" then none else knownServices.find? (fun s => strContains cf s)

/-- The correlation key under which `get_log_stats` groups a log:
`None` when `log.formatted_message.request_uuid` is falsy. -/
def uuidKey (l : CwLog) : Option String :=
  match l.requestUuid with
  | some u => if u = "" then none else some u
  | none => none

/-- Append a log to the trace for key `u` in an insertion-ordered
association list, creating the entry at the end if absent
(`defaultdict(list)` + `append` semantics). -/
def addToGroup : List (String × List CwLog) → String → CwLog → List (String × List CwLog)
  | [], u, l => [(u, [l])]
  | (k, ls) :: rest, u, l =>
    if k = u then (k, ls ++ [l]) :: rest else (k, ls) :: addToGroup rest u l

/-- The grouping phase of `get_log_stats`: every log with a truthy
`request_uuid` is appended, in arrival order, to the trace for that id. -/
def groupLogs (logs : List CwLog) : List (String × List CwLog) :=
  logs.foldl (fun acc l =>
    match uuidKey l with
    | none => acc
    | some u => addToGroup acc u l) []

/-- The latency view of one log in the per-trace scan:
`some (str(stats.get("time", "0")))` when the `stats` block is truthy. -/
def latView (l : CwLog) : Option String :=
  match l.stats with
  | some st => some (match st with | some v => v | none => "0")
  | none => none

/-- The per-trace scan of `get_log_stats` (lines 313-319): fold the trace's
logs, overwriting `latency` at each truthy `stats` block and overwriting
`hotel_code` with the extraction result at each event whose message text
contains `"GRPC Request"`.  An extraction exception propagates. -/
def traceScanAux : List CwLog → String → Option PyLit → Except String (String × Option PyLit)
  | [], lat, hc => Except.ok (lat, hc)
  | l :: rest, lat, hc =>
    let lat' := match latView l with
      | some v => v
      | none => lat
    if strContains l.msgText "GRPC Request" then
      match extract_hotel_code_from_log l.msgText with
      | Except.error e => Except.error e
      | Except.ok hc' => traceScanAux rest lat' hc'
    else traceScanAux rest lat' hc

/-- The per-trace scan started from `latency = "0"`, `hotel_code = "0"`. -/
def traceScan (ls : List CwLog) : Except String (String × Option PyLit) :=
  traceScanAux ls "0" (some (PyLit.pstr "0"))

/-- One `downstream_messages` tuple
`(log.time, formatted_message.service, message_type, formatted_message.function)`. -/
structure DMsg where
  time : Nat
  service : Option String
  messageType : String
  callingFunction : Option String
deriving DecidableEq

/-- Build the `downstream_messages` tuple of one log. -/
def downstreamOf (l : CwLog) : DMsg :=
  { time := l.time
    service := deriveService l.callingFunction
    messageType := l.messageType
    callingFunction := l.callingFunction }

/-- Python truthiness of an optional string. -/
def truthyOpt (o : Option String) : Bool :=
  match o with
  | some s => !(s == "")
  | none => false

/-- The service-name cascade of the classifier (lines 328-333): sequential
`if` statements, so a later match overwrites an earlier one. -/
def pickService (s : String) : String :=
  let r := ""
  let r := if strContains s "windsurfer" then "windsurfer" else r
  let r := if strContains s "sabre" then "sabre" else r
  let r := if strContains s "oracle" then "oracle" else r
  r

/-- The operation-name cascade of the classifier (lines 335-366):
sixteen sequential `if` statements, later matches overwriting earlier. -/
def pickApi (f : String) : String :=
  let r := ""
  let r := if strContains f "GetRateCalendar" then "GetRateCalendar" else r
  let r := if strContains f "GetAvailability" then "GetAvailability" else r
  let r := if strContains f "GetRoomDetails" then "GetRoomDetails" else r
  let r := if strContains f "GetAddons" then "GetAddons" else r
  let r := if strContains f "GetPackage" then "GetPackage" else r
  let r := if strContains f "GetRoomRate" then "GetRoomRate" else r
  let r := if strContains f "MakeReservation" then "MakeReservation" else r
  let r := if strContains f "GetReservation" then "GetReservation" else r
  let r := if strContains f "CancelReservation" then "CancelReservation" else r
  let r := if strContains f "ModifyReservation" then "ModifyReservation" else r
  let r := if strContains f "CreateConfig" then "CreateConfig" else r
  let r := if strContains f "ReadConfig" then "ReadConfig" else r
  let r := if strContains f "UpdateConfig" then "UpdateConfig" else r
  let r := if strContains f "DeleteConfig" then "DeleteConfig" else r
  let r := if strContains f "ListAllConfigs" then "ListAllConfigs" else r
  let r := if strContains f "GetPricingInfo" then "GetPricingInfo" else r
  r

/-- The service/operation resolution loop of the classifier
(lines 320-366): break at the top of an iteration once both are resolved;
otherwise latch each field from the first event whose corresponding tuple
component is truthy and matches a known name. -/
def resolveServiceApi : List DMsg → String → String → String × String
  | [], s, a => (s, a)
  | m :: rest, s, a =>
    if s ≠ "" ∧ a ≠ "" then (s, a)
    else
      let s' := if s = "" ∧ truthyOpt m.service then pickService (m.service.getD "") else s
      let a' := if a = "" ∧ truthyOpt m.callingFunction then pickApi (m.callingFunction.getD "") else a
      resolveServiceApi rest s' a'

/-- The `LogStats` record built per trace by `get_log_stats`. -/
structure CwLogStats where
  request_uuid : String
  initial_time : Nat
  service : String
  downstream : List DMsg
  api_type : String
  end_to_end_latency : String
  hotel_code : Option PyLit

/-- `CloudwatchStats.get_log_stats`: group logs into traces, then classify
each trace.  The `try/except` of the source only guards `LogStats`
construction (whose sole failure mode, `downstream_messages[0]` on an empty
trace, cannot occur since traces are built by appending), so an exception
raised by the tenant-id extraction propagates out of the whole call. -/
def get_log_stats (logs : List CwLog) : Except String (List CwLogStats) :=
  (groupLogs logs).foldlM (fun acc p =>
    match traceScan p.2 with
    | Except.error e => Except.error e
    | Except.ok (lat, hc) =>
      let dms := p.2.map downstreamOf
      let sa := resolveServiceApi dms "" ""
      match dms with
      | [] => Except.ok acc
      | d0 :: _ =>
        Except.ok (acc ++ [{ request_uuid := p.1
                             initial_time := d0.time
                             service := sa.1
                             downstream := dms
                             api_type := sa.2
                             end_to_end_latency := lat
                             hotel_code := hc }])) []

/-! ## `CloudwatchLog._parse_formatted_message`
(skipper_cloud_watch_parser.py, lines 136-173)

The pipe-variant payload-tail extractor: everything before the first hyphen
is the service label; from the hyphen on (or from the last character when
there is no hyphen), characters are scanned for a brace-delimited literal.
The source calls `ast.literal_eval` on the accumulated text at *every*
closing brace, and raises unless the literal parses, the depth counter is
back to zero and the value is a dict. -/

/-- `FormattedMessage` of skipper_cloud_watch_parser.py.  `request_uuid`
holds the literal value found under either key spelling (a Python value,
hence `PyLit`), defaulted to the empty string. -/
structure SkFormattedMessage where
  request_uuid : PyLit
  service : String
  message : String

/-- Python `str.strip()` whitespace predicate. -/
def isPyWs (c : Char) : Bool := c = ' ' ∨ c = '\n' ∨ c = '\t' ∨ c = '\r'

/-- Python `str.strip()`: drop whitespace from both ends. -/
def stripChars (cs : List Char) : List Char :=
  ((cs.dropWhile isPyWs).reverse.dropWhile isPyWs).reverse

/-- `req_id` extraction at a successfully parsed dict literal: both key
spellings are tested in sequence, `requestUuid` overwriting `request_uuid`
when both are present. -/
def extractReqId (kvs : List (PyLit × PyLit)) : PyLit :=
  let r := PyLit.pstr ""
  let r := match pyDictFind kvs "request_uuid" with
    | some v => v
    | none => r
  let r := match pyDictFind kvs "requestUuid" with
    | some v => v
    | none => r
  r

/-- The brace scan of `_parse_formatted_message`: skip characters at depth 0
until an opening brace, accumulate from there, and at every closing brace
literal-parse the accumulated text — succeeding only at depth 0 with a dict
value, raising `"Invalid Message"` at depth 0 with a non-dict value, and
propagating the literal error otherwise (at an inner closing brace the
accumulated text is never a complete literal).  Exhausting the text without
a parse returns an empty `request_uuid` and an empty remainder. -/
def pfmLoop : List Char → Nat → List Char → Except String (PyLit × String)
  | [], _, _ => Except.ok (PyLit.pstr "", "")
  | c :: cs, stack, acc =>
    if stack = 0 ∧ c ≠ '{' then pfmLoop cs stack acc
    else if c = '{' then pfmLoop cs (stack + 1) (acc ++ [c])
    else if c = '}' then
      let stack' := stack - 1
      let acc' := acc ++ [c]
      match literal_eval (String.mk acc') with
      | Except.error e => Except.error e
      | Except.ok expr =>
        match expr with
        | PyLit.pdict kvs =>
          if stack' = 0 then Except.ok (extractReqId kvs, String.mk cs)
          else Except.error "Invalid Message"
        | _ => Except.error "Invalid Message"
    else pfmLoop cs stack (acc ++ [c])

/-- `CloudwatchLog._parse_formatted_message` of
skipper_cloud_watch_parser.py.  On the empty string the source raises a
`NameError` (the loop variable `k` is never bound); when the text has no
hyphen, `k` is left at the final index, so the brace scan covers only the
last character. -/
def parse_formatted_message (message : String) : Except String SkFormattedMessage :=
  let cs := message.data
  if cs.isEmpty then Except.error "NameError"
  else
    let serviceChars := cs.takeWhile (fun c => c ≠ '-')
    let k := if cs.contains '-' then serviceChars.length else cs.length - 1
    match pfmLoop (cs.drop k) 0 [] with
    | Except.error e => Except.error e
    | Except.ok (req, rest) =>
      Except.ok { request_uuid := req
                  service := String.mk (stripChars serviceChars)
                  message := rest }

/-! ## Concrete inputs used by claim theorems, counterexamples and witnesses -/

/-- The record refuting claim C1 as stated: a `GetPricingInfo` record whose
latency equals the epsilon exactly (so the validity test fails). -/
def c1row : Row :=
  { hotel_code := "H1", service := "windsurfer", operation := "GetPricingInfo",
    latency := eps }

/-- A record set satisfying the hypotheses of `C1_invariant`. -/
def c1goodRow : Row :=
  { hotel_code := "H1", service := "windsurfer", operation := "GetAvailability",
    latency := 2 }

/-- A record with a known service but an operation absent from the
`parse_logs` dispatch table (`CreateConfig` is produced by the classifier
but has no `match` case in the Aggregator), with an invalid latency. -/
def c5row : Row :=
  { hotel_code := "H1", service := "windsurfer", operation := "CreateConfig",
    latency := 0 }

/-- A `GetPricingInfo` record whose latency is exactly the epsilon. -/
def c6row : Row :=
  { hotel_code := "H1", service := "windsurfer", operation := "GetPricingInfo",
    latency := eps }

/-- A record exercising the valid-latency branch of `C6_threshold`. -/
def c6goodRow : Row :=
  { hotel_code := "H1", service := "sabre", operation := "GetRoomRate",
    latency := 3 }

/-- A record hitting the `GetPricingInfo` fall-through. -/
def c10row : Row :=
  { hotel_code := "H2", service := "oracle", operation := "GetPricingInfo",
    latency := eps }

/-- The names of the three fixed `Service` objects, as constructed by
`parse_logs` and never modified by the fold. -/
def namesOk (st : AggState) : Prop :=
  st.ws.name = "windsurfer" ∧ st.sabre.name = "sabre" ∧ st.oracle.name = "oracle"

/-- Two records for the same tenant from two different services. -/
def c4rowA : Row :=
  { hotel_code := "H1", service := "windsurfer", operation := "GetAvailability",
    latency := 2 }

/-- Second record for tenant `H1`, now from service `sabre`. -/
def c4rowB : Row :=
  { hotel_code := "H1", service := "sabre", operation := "GetAvailability",
    latency := 2 }

/-- The trace content the spec assigns to a correlation id: the input logs
bearing that id, in arrival order. -/
def tracesOf (u : String) (logs : List CwLog) : List CwLog :=
  logs.filter (fun l => uuidKey l == some u)

/-- The latency accumulation of the per-trace scan, in isolation: fold the
trace's logs, overwriting at each truthy `stats` block. -/
def pureLatFold (a : String) (ls : List CwLog) : String :=
  ls.foldl (fun acc l =>
    match latView l with
    | some v => v
    | none => acc) a

/-- First classifier event: correlation id `A`, `stats.time = "2.0"`,
arrival timestamp 5. -/
def cwE1 : CwLog :=
  { time := 5, messageType := "INFO", callingFunction := none,
    requestUuid := some "A", stats := some (some "2.0"), msgText := "x" }

/-- Second classifier event: correlation id `A`, `stats.time = "4.5"`,
arrival timestamp 1 (earlier than `cwE1`, fed after it). -/
def cwE2 : CwLog :=
  { time := 1, messageType := "INFO", callingFunction := none,
    requestUuid := some "A", stats := some (some "4.5"), msgText := "y" }

/-- A classifier event with no correlation id (empty string: falsy). -/
def cwE3 : CwLog :=
  { time := 7, messageType := "INFO", callingFunction := none,
    requestUuid := some "", stats := none, msgText := "z" }

/-- A log whose message text contains the `GRPC Request` marker followed by
an embedded object with an unbalanced opening brace. -/
def c2badLog : CwLog :=
  { time := 0, messageType := "INFO", callingFunction := none,
    requestUuid := some "A", stats := none,
    msgText := "GRPC Request \x7bx" }

/-- A log whose `GRPC Request` message embeds balanced braces around text
that is not a valid literal (a literal-parse failure). -/
def c2badLog2 : CwLog :=
  { time := 0, messageType := "INFO", callingFunction := none,
    requestUuid := some "A", stats := none,
    msgText := "GRPC Request \x7b]\x7d" }

/-- A pipe-variant payload tail whose embedded object literal contains a
nested object (the claim says the nesting counter parses it whole). -/
def c3nested : String := "svc-\x7b\"requestUuid\": \x7b\"a\": 1\x7d\x7d"

/-- A pipe-variant payload tail containing no object literal at all. -/
def c3plain : String := "svc-hello Took 2s"

/-- A pipe-variant payload tail with a flat (unnested) object literal. -/
def c3flat : String := "svc-\x7b\"request_uuid\": \"abc\"\x7d Took 2s"

/-! ## Helper lemmas: association lists and the aggregation step -/

/-- `eps` is the rational denoted by the source's literal `0.000001`. -/
theorem eps_eq_div : eps = 1 / 1000000 := by
  norm_num [eps]
  rw [Rat.mk'_eq_divInt]
  norm_num [Rat.divInt_eq_div]

theorem lkCons_self (k : String) (v : Service) (l : List (String × Service)) :
    ((k, v) :: l).lookup k = some v := by
  simp [List.lookup]

theorem lkCons_ne (k k' : String) (v : Service) (l : List (String × Service))
    (h : k' ≠ k) : ((k, v) :: l).lookup k' = l.lookup k' := by
  have hb : (k' == k) = false := beq_eq_false_iff_ne.mpr h
  simp [List.lookup, hb]

theorem lookup_assocUpdate_self (l : List (String × Service)) (k : String)
    (f : Service → Service) :
    (assocUpdate k f l).lookup k = (l.lookup k).map f := by
  induction l with
  | nil => rfl
  | cons p rest ih =>
    obtain ⟨k', v⟩ := p
    by_cases hk : k' = k
    · subst hk
      simp [assocUpdate, lkCons_self]
    · rw [assocUpdate]
      simp only [if_neg hk]
      rw [lkCons_ne _ _ _ _ (Ne.symm hk), lkCons_ne _ _ _ _ (Ne.symm hk), ih]

theorem lookup_assocUpdate_ne (l : List (String × Service)) (k k' : String)
    (f : Service → Service) (h : k' ≠ k) :
    (assocUpdate k f l).lookup k' = l.lookup k' := by
  induction l with
  | nil => rfl
  | cons p rest ih =>
    obtain ⟨k0, v⟩ := p
    by_cases hk : k0 = k
    · subst hk
      simp [assocUpdate, lkCons_ne _ _ _ _ h]
    · rw [assocUpdate]
      simp only [if_neg hk]
      by_cases hk' : k' = k0
      · subst hk'
        rw [lkCons_self, lkCons_self]
      · rw [lkCons_ne _ _ _ _ hk', lkCons_ne _ _ _ _ hk', ih]

theorem lookup_append (l₁ l₂ : List (String × Service)) (k : String) :
    (l₁ ++ l₂).lookup k = ((l₁.lookup k).or (l₂.lookup k)) := by
  induction l₁ with
  | nil => rfl
  | cons p rest ih =>
    obtain ⟨k0, v⟩ := p
    by_cases hk : k = k0
    · subst hk
      simp [lkCons_self]
    · rw [List.cons_append, lkCons_ne _ _ _ _ hk, lkCons_ne _ _ _ _ hk, ih]

theorem opUpdate_name (op : String) (lat : ℚ) (sv : Service) :
    (opUpdate op lat sv).name = sv.name := by
  unfold opUpdate
  split <;> first
    | rfl
    | (dsimp only; split <;> rfl)

theorem rowStep_name (r : Row) (sv : Service) :
    (rowStep r sv).name = sv.name := by
  unfold rowStep
  rw [opUpdate_name]

theorem mem_knownServices (s : String) (h : s ∈ knownServices) :
    s = "windsurfer" ∨ s = "sabre" ∨ s = "oracle" := by
  simpa [knownServices] using h

theorem foldRow_hotel_codes (st : AggState) (r : Row) (h : r.service ∈ knownServices) :
    (foldRow st r).hotel_codes =
      assocUpdate r.hotel_code (rowStep r)
        (if (st.hotel_codes.lookup r.hotel_code).isSome then st.hotel_codes
         else st.hotel_codes ++ [(r.hotel_code, freshService (getService st r.service).name)]) := by
  have hc : knownServices.contains r.service := List.elem_eq_true_of_mem h
  rcases mem_knownServices _ h with hs | hs | hs <;>
    simp [foldRow, hc, hs, getService, setService, knownServices]

theorem foldRow_known (st : AggState) (r : Row) (h : r.service ∈ knownServices) :
    getService (foldRow st r) r.service = rowStep r (getService st r.service) ∧
    (foldRow st r).hotel_codes.lookup r.hotel_code =
      some (rowStep r ((st.hotel_codes.lookup r.hotel_code).getD
        (freshService (getService st r.service).name))) ∧
    (∀ s', s' ∈ knownServices → s' ≠ r.service →
      getService (foldRow st r) s' = getService st s') ∧
    (∀ hc', hc' ≠ r.hotel_code →
      (foldRow st r).hotel_codes.lookup hc' = st.hotel_codes.lookup hc') := by
  have hc : knownServices.contains r.service := List.elem_eq_true_of_mem h
  refine ⟨?_, ?_, ?_, ?_⟩
  · rcases mem_knownServices _ h with hs | hs | hs <;>
      simp [foldRow, hc, hs, getService, setService, knownServices]
  · rw [foldRow_hotel_codes st r h]
    cases hl : st.hotel_codes.lookup r.hotel_code with
    | some v =>
      simp [hl, lookup_assocUpdate_self]
    | none =>
      simp only [hl, Option.isSome_none, Bool.false_eq_true, if_false,
        lookup_assocUpdate_self, lookup_append, hl, Option.none_or, Option.getD_none]
      rw [lkCons_self]
      rfl
  · intro s' hs' hne
    rcases mem_knownServices _ h with hs | hs | hs <;>
      rcases mem_knownServices _ hs' with hs2 | hs2 | hs2 <;>
      first
        | exact absurd (hs2.trans hs.symm) hne
        | simp [foldRow, hc, hs, hs2, getService, setService, knownServices]
  · intro hc' hne
    rw [foldRow_hotel_codes st r h, lookup_assocUpdate_ne _ _ _ _ hne]
    split
    · rfl
    · rw [lookup_append, lkCons_ne _ _ _ _ hne]
      simp

/-! ## Invariant preservation for the aggregation fold -/

theorem svInv_fresh (n : String) : svInv (freshService n) := by
  unfold svInv epInv freshService
  simp

theorem rowStep_inv (r : Row) (sv : Service) (hg : goodRow r) (hinv : svInv sv) :
    svInv (rowStep r sv) := by
  obtain ⟨hop, hgpi⟩ := hg
  simp only [knownOps, List.mem_cons, List.not_mem_nil, or_false] at hop
  unfold svInv epInv at hinv ⊢
  rcases hop with h | h | h | h | h | h | h | h | h | h | h <;>
    by_cases hl : r.latency > eps <;>
    first
      | exact absurd (hgpi h) hl
      | (simp [rowStep, h, opUpdate, bumpCount, epAddLat, epAddErr, hl]
         omega)

theorem entries_assocUpdate (l : List (String × Service)) (k : String)
    (f : Service → Service) (hf : ∀ v, svInv v → svInv (f v)) :
    (∀ p ∈ l, svInv p.2) → ∀ p ∈ assocUpdate k f l, svInv p.2 := by
  induction l with
  | nil => intro _ p hp; simp [assocUpdate] at hp
  | cons q rest ih =>
    obtain ⟨k0, v⟩ := q
    intro hl p hp
    rw [assocUpdate] at hp
    by_cases hk : k0 = k
    · rw [if_pos hk] at hp
      rcases List.mem_cons.mp hp with hh | hh
      · rw [hh]
        exact hf v (hl _ (List.mem_cons_self _ _))
      · exact hl _ (List.mem_cons_of_mem _ hh)
    · rw [if_neg hk] at hp
      rcases List.mem_cons.mp hp with hh | hh
      · rw [hh]
        exact hl _ (List.mem_cons_self _ _)
      · exact ih (fun p' hp' => hl _ (List.mem_cons_of_mem _ hp')) _ hh

theorem stateInv_foldRow (st : AggState) (r : Row) (hst : stateInv st)
    (hg : goodRow r) : stateInv (foldRow st r) := by
  by_cases h : r.service ∈ knownServices
  · have hc : knownServices.contains r.service := List.elem_eq_true_of_mem h
    obtain ⟨hws, hsab, hora, hhot⟩ := hst
    have hstep : ∀ v, svInv v → svInv (rowStep r v) := fun v hv => rowStep_inv r v hg hv
    have hentries : ∀ hcs,
        (∀ p ∈ hcs, svInv p.2) →
        ∀ p ∈ assocUpdate r.hotel_code (rowStep r) hcs, svInv p.2 :=
      fun hcs hhcs => entries_assocUpdate hcs r.hotel_code (rowStep r) hstep hhcs
    have happend : ∀ nm, ∀ p ∈ st.hotel_codes ++ [(r.hotel_code, freshService nm)], svInv p.2 := by
      intro nm p hp
      rcases List.mem_append.mp hp with hh | hh
      · exact hhot _ hh
      · rcases List.mem_singleton.mp hh with rfl
        exact svInv_fresh nm
    rcases mem_knownServices _ h with hs | hs | hs <;>
      refine ⟨?_, ?_, ?_, ?_⟩ <;>
      simp only [foldRow, hc, hs, getService, setService, knownServices, if_true,
        List.contains_cons, beq_self_eq_true, Bool.true_or, Bool.or_true, if_pos] <;>
      first
        | exact hws
        | exact hsab
        | exact hora
        | exact hstep _ hws
        | exact hstep _ hsab
        | exact hstep _ hora
        | (split
           · exact hentries _ hhot
           · exact hentries _ (happend _))
  · have hc : knownServices.contains r.service = false := by
      cases hcc : knownServices.contains r.service with
      | false => rfl
      | true => exact absurd (List.mem_of_elem_eq_true hcc) h
    rw [foldRow, hc]
    · exact hst

/-! ## Claim C1 -/


/-- C1 counterexample: folding the single record `c1row` leaves the
aggregation state with `windsurfer.count = 1` but no latency sample and no
error increment, so `count == len(latencies) + error_count` fails — the
invariant does not hold for every input record set. -/
theorem C1_counterexample : ¬ stateInv (parse_logs [c1row]) := by decide

/-- C1 (amended): for every record set in which each folded record's
operation is in the dispatch table and each `GetPricingInfo` record has a
latency strictly above the validity epsilon, every `ServiceStats` (global
and per-tenant) and every `EndpointStats` satisfies
`count == len(latencies) + error_count` after the fold (and, the proof
being a fold invariant, at every intermediate state). -/
theorem C1_invariant (rows : List Row) (h : ∀ r ∈ rows, goodRow r) :
    stateInv (parse_logs rows) := by
  have main : ∀ (rs : List Row) (st : AggState), stateInv st →
      (∀ r ∈ rs, goodRow r) → stateInv (rs.foldl foldRow st) := by
    intro rs
    induction rs with
    | nil => intro st hst _; exact hst
    | cons r rest ih =>
      intro st hst hr
      rw [List.foldl_cons]
      exact ih _ (stateInv_foldRow st r hst (hr r (List.mem_cons_self _ _)))
        (fun r' h' => hr r' (List.mem_cons_of_mem _ h'))
  exact main rows initState (by decide) h


theorem C1_invariant_witness :
    (∀ r ∈ [c1goodRow], goodRow r) ∧ stateInv (parse_logs [c1goodRow]) :=
  ⟨by decide, C1_invariant [c1goodRow] (by decide)⟩

/-! ## Per-operation effect lemmas for the dispatch -/

theorem mem_knownOps (op : String) (h : op ∈ knownOps) :
    op = "GetRateCalendar" ∨ op = "GetAvailability" ∨ op = "GetRoomDetails" ∨
    op = "GetAddons" ∨ op = "GetPackage" ∨ op = "GetRoomRate" ∨
    op = "MakeReservation" ∨ op = "GetReservation" ∨ op = "CancelReservation" ∨
    op = "ModifyReservation" ∨ op = "GetPricingInfo" := by
  simpa [knownOps] using h

theorem opUpdate_unknown (op : String) (lat : ℚ) (sv : Service)
    (h : op ∉ knownOps) : opUpdate op lat sv = sv := by
  simp only [knownOps, List.mem_cons, List.not_mem_nil, or_false, not_or] at h
  unfold opUpdate
  split <;> simp_all

theorem opUpdate_valid (op : String) (lat : ℚ) (sv : Service)
    (hop : op ∈ knownOps) (hl : lat > eps) :
    (opUpdate op lat sv).latency = sv.latency ++ [lat] ∧
    (opUpdate op lat sv).errors = sv.errors ∧
    (opUpdate op lat sv).count = sv.count ∧
    (epOf op (opUpdate op lat sv)).latency = (epOf op sv).latency ++ [lat] ∧
    (epOf op (opUpdate op lat sv)).errors = (epOf op sv).errors ∧
    (epOf op (opUpdate op lat sv)).count = (epOf op sv).count + 1 := by
  rcases mem_knownOps op hop with h|h|h|h|h|h|h|h|h|h|h <;> subst h <;>
    simp [opUpdate, epOf, bumpCount, epAddLat, hl]

theorem opUpdate_invalid (op : String) (lat : ℚ) (sv : Service)
    (hop : op ∈ knownOps) (hne : op ≠ "GetPricingInfo") (hl : ¬ lat > eps) :
    (opUpdate op lat sv).errors = sv.errors + 1 ∧
    (opUpdate op lat sv).latency = sv.latency ∧
    (opUpdate op lat sv).count = sv.count ∧
    (epOf op (opUpdate op lat sv)).errors = (epOf op sv).errors + 1 ∧
    (epOf op (opUpdate op lat sv)).latency = (epOf op sv).latency ∧
    (epOf op (opUpdate op lat sv)).count = (epOf op sv).count + 1 := by
  rcases mem_knownOps op hop with h|h|h|h|h|h|h|h|h|h|h <;> subst h <;>
    first
      | exact absurd rfl hne
      | simp [opUpdate, epOf, bumpCount, epAddErr, hl]

theorem foldRow_skip (st : AggState) (r : Row) (h : r.service ∉ knownServices) :
    foldRow st r = st := by
  have hc : knownServices.contains r.service = false := by
    cases hcc : knownServices.contains r.service with
    | false => rfl
    | true => exact absurd (List.mem_of_elem_eq_true hcc) h
  rw [foldRow, hc]
  simp

/-! ## Claim C5 -/


/-- C5 counterexample: folding `c5row` (unknown operation, latency `0`, so
the claimed validity rule would record an error) increments the windsurfer
top-level count and the per-tenant count but leaves the top-level error
count and latency list untouched — the top-level error/latency is NOT
updated for an unknown operation, contrary to the claim. -/
theorem C5_counterexample :
    (parse_logs [c5row]).ws.count = 1 ∧
    (parse_logs [c5row]).ws.errors = 0 ∧
    (parse_logs [c5row]).ws.latency = [] ∧
    ((parse_logs [c5row]).hotel_codes.lookup "H1").map Service.count = some 1 ∧
    ((parse_logs [c5row]).hotel_codes.lookup "H1").map Service.errors = some 0 := by
  decide

/-- C5 (amended): a record with a known service and an operation outside the
dispatch table increments only the top-level counts of the owning global
`ServiceStats` and per-tenant `ServiceStats`; every other field — top-level
errors, top-level latencies and all eleven `EndpointStats` buckets of both —
is left untouched (the record-update equalities below fix every field). -/
theorem C5_unknown_op (st : AggState) (r : Row)
    (hs : r.service ∈ knownServices) (hop : r.operation ∉ knownOps) :
    getService (foldRow st r) r.service =
      { getService st r.service with count := (getService st r.service).count + 1 } ∧
    (foldRow st r).hotel_codes.lookup r.hotel_code =
      some { ((st.hotel_codes.lookup r.hotel_code).getD
              (freshService (getService st r.service).name)) with
             count := ((st.hotel_codes.lookup r.hotel_code).getD
              (freshService (getService st r.service).name)).count + 1 } := by
  have hstep : ∀ sv : Service, rowStep r sv = { sv with count := sv.count + 1 } := by
    intro sv
    rw [rowStep, opUpdate_unknown _ _ _ hop]
  obtain ⟨h1, h2, _, _⟩ := foldRow_known st r hs
  exact ⟨by rw [h1, hstep], by rw [h2, hstep]⟩

/-- A concrete instance of `C5_unknown_op`. -/
theorem C5_unknown_op_witness :
    c5row.service ∈ knownServices ∧ c5row.operation ∉ knownOps ∧
    (getService (foldRow initState c5row) c5row.service =
      { getService initState c5row.service with
        count := (getService initState c5row.service).count + 1 } ∧
    (foldRow initState c5row).hotel_codes.lookup c5row.hotel_code =
      some { ((initState.hotel_codes.lookup c5row.hotel_code).getD
              (freshService (getService initState c5row.service).name)) with
             count := ((initState.hotel_codes.lookup c5row.hotel_code).getD
              (freshService (getService initState c5row.service).name)).count + 1 }) :=
  ⟨by decide, by decide, C5_unknown_op initState c5row (by decide) (by decide)⟩

/-! ## Claim C6 -/


/-- C6 counterexample: for a `GetPricingInfo` record with latency exactly
`1e-6` the fold increments all four matching counts but increments NO error
counter (and appends no latency sample) — the claim's "exactly 1e-6 is
counted as an error in all four matching error counters" fails for the
`GetPricingInfo` operation, whose dispatch case has no error branch. -/
theorem C6_counterexample :
    (parse_logs [c6row]).ws.get_pricing_info.count = 1 ∧
    (parse_logs [c6row]).ws.errors = 0 ∧
    (parse_logs [c6row]).ws.get_pricing_info.errors = 0 ∧
    ((parse_logs [c6row]).hotel_codes.lookup "H1").map Service.errors = some 0 ∧
    ((parse_logs [c6row]).hotel_codes.lookup "H1").map
      (fun sv => sv.get_pricing_info.errors) = some 0 ∧
    (parse_logs [c6row]).ws.latency = [] := by
  decide

/-- C6 (amended): the validity threshold is exact and strict, with
`GetPricingInfo` excepted from the error branch.  For a folded record with a
known service and a dispatch-table operation: a latency strictly greater
than `1e-6` is appended to all four matching latency lists (global top
level, global endpoint, tenant top level, tenant endpoint) with no error
counter touched; a latency not strictly greater than `1e-6` (e.g. exactly
`1e-6`) increments all four matching error counters with no list touched —
for every operation other than `GetPricingInfo`. -/
theorem C6_threshold (st : AggState) (r : Row)
    (hs : r.service ∈ knownServices) (hop : r.operation ∈ knownOps) :
    getService (foldRow st r) r.service = rowStep r (getService st r.service) ∧
    (foldRow st r).hotel_codes.lookup r.hotel_code =
      some (rowStep r ((st.hotel_codes.lookup r.hotel_code).getD
        (freshService (getService st r.service).name))) ∧
    (∀ sv : Service,
      (r.latency > eps →
        (rowStep r sv).latency = sv.latency ++ [r.latency] ∧
        (epOf r.operation (rowStep r sv)).latency =
          (epOf r.operation sv).latency ++ [r.latency] ∧
        (rowStep r sv).errors = sv.errors ∧
        (epOf r.operation (rowStep r sv)).errors = (epOf r.operation sv).errors) ∧
      (¬ r.latency > eps → r.operation ≠ "GetPricingInfo" →
        (rowStep r sv).errors = sv.errors + 1 ∧
        (epOf r.operation (rowStep r sv)).errors = (epOf r.operation sv).errors + 1 ∧
        (rowStep r sv).latency = sv.latency ∧
        (epOf r.operation (rowStep r sv)).latency = (epOf r.operation sv).latency)) := by
  obtain ⟨h1, h2, _, _⟩ := foldRow_known st r hs
  refine ⟨h1, h2, ?_⟩
  intro sv
  constructor
  · intro hl
    obtain ⟨e1, e2, _, e4, e5, _⟩ :=
      opUpdate_valid r.operation r.latency { sv with count := sv.count + 1 } hop hl
    refine ⟨?_, ?_, ?_, ?_⟩ <;> simp only [rowStep] <;>
      first
        | simpa using e1
        | simpa using e4
        | simpa using e2
        | simpa using e5
  · intro hl hne
    obtain ⟨e1, e2, _, e4, e5, _⟩ :=
      opUpdate_invalid r.operation r.latency { sv with count := sv.count + 1 } hop hne hl
    refine ⟨?_, ?_, ?_, ?_⟩ <;> simp only [rowStep] <;>
      first
        | simpa using e1
        | simpa using e4
        | simpa using e2
        | simpa using e5


/-- A concrete instance of `C6_threshold`. -/
theorem C6_threshold_witness :
    c6goodRow.service ∈ knownServices ∧ c6goodRow.operation ∈ knownOps ∧
    (getService (foldRow initState c6goodRow) c6goodRow.service =
       rowStep c6goodRow (getService initState c6goodRow.service) ∧
     (foldRow initState c6goodRow).hotel_codes.lookup c6goodRow.hotel_code =
       some (rowStep c6goodRow ((initState.hotel_codes.lookup c6goodRow.hotel_code).getD
         (freshService (getService initState c6goodRow.service).name))) ∧
     (∀ sv : Service,
       (c6goodRow.latency > eps →
         (rowStep c6goodRow sv).latency = sv.latency ++ [c6goodRow.latency] ∧
         (epOf c6goodRow.operation (rowStep c6goodRow sv)).latency =
           (epOf c6goodRow.operation sv).latency ++ [c6goodRow.latency] ∧
         (rowStep c6goodRow sv).errors = sv.errors ∧
         (epOf c6goodRow.operation (rowStep c6goodRow sv)).errors =
           (epOf c6goodRow.operation sv).errors) ∧
       (¬ c6goodRow.latency > eps → c6goodRow.operation ≠ "GetPricingInfo" →
         (rowStep c6goodRow sv).errors = sv.errors + 1 ∧
         (epOf c6goodRow.operation (rowStep c6goodRow sv)).errors =
           (epOf c6goodRow.operation sv).errors + 1 ∧
         (rowStep c6goodRow sv).latency = sv.latency ∧
         (epOf c6goodRow.operation (rowStep c6goodRow sv)).latency =
           (epOf c6goodRow.operation sv).latency))) :=
  ⟨by decide, by decide, C6_threshold initState c6goodRow (by decide) (by decide)⟩

/-! ## Claim C10 -/

/-- C10: a record with a known service, operation exactly `GetPricingInfo`
and a latency not strictly greater than `1e-6` increments the global
top-level count, the tenant top-level count and both `get_pricing_info`
endpoint counts, while touching no error counter and no latency list (the
record-update equalities fix every other field of both objects); and
`GetPricingInfo` is the only dispatch-table operation without an error
branch — every other operation increments the error counter on an invalid
latency. -/
theorem C10_gpi_no_error_branch (st : AggState) (r : Row)
    (hs : r.service ∈ knownServices) (hop : r.operation = "GetPricingInfo")
    (hl : ¬ r.latency > eps) :
    getService (foldRow st r) r.service =
      { getService st r.service with
        count := (getService st r.service).count + 1,
        get_pricing_info := bumpCount (getService st r.service).get_pricing_info } ∧
    (foldRow st r).hotel_codes.lookup r.hotel_code =
      some { ((st.hotel_codes.lookup r.hotel_code).getD
              (freshService (getService st r.service).name)) with
             count := ((st.hotel_codes.lookup r.hotel_code).getD
              (freshService (getService st r.service).name)).count + 1,
             get_pricing_info := bumpCount ((st.hotel_codes.lookup r.hotel_code).getD
              (freshService (getService st r.service).name)).get_pricing_info } ∧
    (∀ op ∈ knownOps, op ≠ "GetPricingInfo" → ∀ (lat : ℚ) (sv : Service),
      ¬ lat > eps → (opUpdate op lat sv).errors = sv.errors + 1) := by
  have hstep : ∀ sv : Service, rowStep r sv =
      { sv with count := sv.count + 1, get_pricing_info := bumpCount sv.get_pricing_info } := by
    intro sv
    rw [rowStep, hop, opUpdate]
    simp [hl]
  obtain ⟨h1, h2, _, _⟩ := foldRow_known st r hs
  refine ⟨by rw [h1, hstep], by rw [h2, hstep], ?_⟩
  intro op hopk hne lat sv hlat
  exact (opUpdate_invalid op lat sv hopk hne hlat).1


/-- A concrete instance of `C10_gpi_no_error_branch`. -/
theorem C10_witness :
    c10row.service ∈ knownServices ∧ c10row.operation = "GetPricingInfo" ∧
    ¬ c10row.latency > eps ∧
    (getService (foldRow initState c10row) c10row.service =
      { getService initState c10row.service with
        count := (getService initState c10row.service).count + 1,
        get_pricing_info :=
          bumpCount (getService initState c10row.service).get_pricing_info } ∧
    (foldRow initState c10row).hotel_codes.lookup c10row.hotel_code =
      some { ((initState.hotel_codes.lookup c10row.hotel_code).getD
              (freshService (getService initState c10row.service).name)) with
             count := ((initState.hotel_codes.lookup c10row.hotel_code).getD
              (freshService (getService initState c10row.service).name)).count + 1,
             get_pricing_info := bumpCount ((initState.hotel_codes.lookup c10row.hotel_code).getD
              (freshService (getService initState c10row.service).name)).get_pricing_info } ∧
    (∀ op ∈ knownOps, op ≠ "GetPricingInfo" → ∀ (lat : ℚ) (sv : Service),
      ¬ lat > eps → (opUpdate op lat sv).errors = sv.errors + 1)) :=
  ⟨by decide, by decide, by decide,
   C10_gpi_no_error_branch initState c10row (by decide) (by decide) (by decide)⟩

/-! ## Claim C4: machinery for the per-tenant rollup characterization -/

theorem lookup_eq_none_iff (l : List (String × Service)) (k : String) :
    l.lookup k = none ↔ k ∉ l.map Prod.fst := by
  induction l with
  | nil => simp
  | cons p rest ih =>
    obtain ⟨k0, v⟩ := p
    by_cases hk : k = k0
    · subst hk
      simp [lkCons_self]
    · rw [lkCons_ne _ _ _ _ hk]
      simp [hk, ih]

theorem keys_assocUpdate (l : List (String × Service)) (k : String)
    (f : Service → Service) :
    (assocUpdate k f l).map Prod.fst = l.map Prod.fst := by
  induction l with
  | nil => rfl
  | cons p rest ih =>
    obtain ⟨k0, v⟩ := p
    rw [assocUpdate]
    split <;> simp [ih]

theorem keysNodup_foldRow (st : AggState) (r : Row)
    (h : (st.hotel_codes.map Prod.fst).Nodup) :
    ((foldRow st r).hotel_codes.map Prod.fst).Nodup := by
  by_cases hks : r.service ∈ knownServices
  · rw [foldRow_hotel_codes st r hks, keys_assocUpdate]
    split
    · exact h
    · next hnone =>
      have hnone' : st.hotel_codes.lookup r.hotel_code = none :=
        Option.not_isSome_iff_eq_none.mp hnone
      have hk : r.hotel_code ∉ st.hotel_codes.map Prod.fst :=
        (lookup_eq_none_iff _ _).mp hnone'
      rw [List.map_append]
      simp [List.nodup_append, h, hk]
  · rw [foldRow_skip st r hks]
    exact h

theorem namesOk_foldRow (st : AggState) (r : Row) (hn : namesOk st) :
    namesOk (foldRow st r) := by
  by_cases h : r.service ∈ knownServices
  · obtain ⟨h1, h2, h3⟩ := hn
    have hc : knownServices.contains r.service := List.elem_eq_true_of_mem h
    rcases mem_knownServices _ h with hs | hs | hs <;>
      exact ⟨by simp [foldRow, hc, hs, getService, setService, knownServices, rowStep_name, h1],
             by simp [foldRow, hc, hs, getService, setService, knownServices, rowStep_name, h2],
             by simp [foldRow, hc, hs, getService, setService, knownServices, rowStep_name, h3]⟩
  · rw [foldRow_skip st r h]
    exact hn

theorem getService_name (st : AggState) (s : String) (hn : namesOk st)
    (h : s ∈ knownServices) : (getService st s).name = s := by
  obtain ⟨h1, h2, h3⟩ := hn
  rcases mem_knownServices _ h with hs | hs | hs <;> subst hs <;>
    simp [getService, h1, h2, h3]

theorem firstTrigger_cons_skip (r : Row) (rows : List Row) (hc : String)
    (h : r.service ∉ knownServices) :
    firstTrigger (r :: rows) hc = firstTrigger rows hc := by
  have hcf : knownServices.contains r.service = false := by
    cases hcc : knownServices.contains r.service with
    | false => rfl
    | true => exact absurd (List.mem_of_elem_eq_true hcc) h
  rw [firstTrigger, firstTrigger, List.find?_cons_of_neg]
  simp [h]

theorem firstTrigger_cons_miss (r : Row) (rows : List Row) (hc : String)
    (h : r.hotel_code ≠ hc) :
    firstTrigger (r :: rows) hc = firstTrigger rows hc := by
  rw [firstTrigger, firstTrigger, List.find?_cons_of_neg]
  simp [h]

theorem firstTrigger_cons_hit (r : Row) (rows : List Row)
    (h : r.service ∈ knownServices) :
    firstTrigger (r :: rows) r.hotel_code = some r := by
  have hc : knownServices.contains r.service := List.elem_eq_true_of_mem h
  rw [firstTrigger, List.find?_cons_of_pos]
  simp [hc, h]

theorem perTenant_aux (rows : List Row) :
    ∀ st : AggState, namesOk st → ∀ hc : String,
    ((((rows.foldl foldRow st).hotel_codes.lookup hc).isSome) ↔
      ((st.hotel_codes.lookup hc).isSome ∨ (firstTrigger rows hc).isSome)) ∧
    (∀ sv, (rows.foldl foldRow st).hotel_codes.lookup hc = some sv →
      (∃ sv₀, st.hotel_codes.lookup hc = some sv₀ ∧ sv.name = sv₀.name) ∨
      (st.hotel_codes.lookup hc = none ∧
        ∃ r₀, firstTrigger rows hc = some r₀ ∧ sv.name = r₀.service)) := by
  induction rows with
  | nil =>
    intro st _ hcx
    refine ⟨by simp [firstTrigger], ?_⟩
    intro sv hsv
    exact Or.inl ⟨sv, hsv, rfl⟩
  | cons r rest ih =>
    intro st hn hcx
    rw [List.foldl_cons]
    by_cases hks : r.service ∈ knownServices
    · by_cases hhc : r.hotel_code = hcx
      · subst hhc
        obtain ⟨_, h2, _, _⟩ := foldRow_known st r hks
        have htrig : firstTrigger (r :: rest) r.hotel_code = some r :=
          firstTrigger_cons_hit r rest hks
        obtain ⟨ih1, ih2⟩ := ih (foldRow st r) (namesOk_foldRow st r hn) r.hotel_code
        constructor
        · rw [ih1, h2, htrig]
          simp
        · intro sv hsv
          rcases ih2 sv hsv with ⟨sv₀, hl0, hname⟩ | ⟨hnone, _⟩
          · rw [h2] at hl0
            cases hE : st.hotel_codes.lookup r.hotel_code with
            | some v =>
              left
              refine ⟨v, rfl, ?_⟩
              rw [hname, ← Option.some.inj hl0, hE, Option.getD_some, rowStep_name]
            | none =>
              right
              refine ⟨rfl, r, htrig, ?_⟩
              rw [hname, ← Option.some.inj hl0, hE, Option.getD_none, rowStep_name]
              show (freshService (getService st r.service).name).name = r.service
              rw [getService_name st r.service hn hks]
              rfl
          · rw [h2] at hnone
            cases hnone
      · obtain ⟨_, _, _, h4⟩ := foldRow_known st r hks
        have hlk : (foldRow st r).hotel_codes.lookup hcx = st.hotel_codes.lookup hcx :=
          h4 hcx (fun he => hhc he.symm)
        have htrig : firstTrigger (r :: rest) hcx = firstTrigger rest hcx :=
          firstTrigger_cons_miss r rest hcx hhc
        obtain ⟨ih1, ih2⟩ := ih (foldRow st r) (namesOk_foldRow st r hn) hcx
        refine ⟨by rw [ih1, hlk, htrig], ?_⟩
        intro sv hsv
        rcases ih2 sv hsv with ⟨sv₀, hl0, hname⟩ | ⟨hnone, r₀, htr, hname⟩
        · left
          exact ⟨sv₀, by rw [← hlk]; exact hl0, hname⟩
        · right
          exact ⟨by rw [← hlk]; exact hnone, r₀, by rw [htrig]; exact htr, hname⟩
    · rw [foldRow_skip st r hks]
      rw [firstTrigger_cons_skip r rest hcx hks]
      exact ih st hn hcx

/-- C4 counterexample: the two records `c4rowA` (windsurfer, tenant H1) and
`c4rowB` (sabre, tenant H1) form two distinct (tenant_id, service) pairs,
yet the per-tenant rollup holds exactly ONE entry, keyed by the tenant id
alone, named after the service of the first record and accumulating both
records' counts — not one entry per (tenant_id, service) pair. -/
theorem C4_counterexample :
    (parse_logs [c4rowA, c4rowB]).hotel_codes.map Prod.fst = ["H1"] ∧
    ((parse_logs [c4rowA, c4rowB]).hotel_codes.lookup "H1").map Service.name =
      some "windsurfer" ∧
    ((parse_logs [c4rowA, c4rowB]).hotel_codes.lookup "H1").map Service.count =
      some 2 := by
  decide

/-- C4 (amended): the per-tenant rollup contains one `ServiceStats` entry
per tenant id (not per (tenant_id, service) pair): its keys are the distinct
hotel codes of the accepted records, each entry is created lazily on first
sight of its tenant id, and it is named after the service of the first
accepted record bearing that tenant id (records of other services for the
same tenant fold into the same entry). -/
theorem C4_per_tenant (rows : List Row) (hc : String) :
    ((parse_logs rows).hotel_codes.map Prod.fst).Nodup ∧
    (((parse_logs rows).hotel_codes.lookup hc).isSome ↔
      (firstTrigger rows hc).isSome) ∧
    (∀ sv, (parse_logs rows).hotel_codes.lookup hc = some sv →
      ∃ r₀, firstTrigger rows hc = some r₀ ∧ sv.name = r₀.service) := by
  have hn : namesOk initState := ⟨rfl, rfl, rfl⟩
  obtain ⟨h1, h2⟩ := perTenant_aux rows initState hn hc
  have hkeys : ∀ (rs : List Row) (st : AggState),
      (st.hotel_codes.map Prod.fst).Nodup →
      (((rs.foldl foldRow st).hotel_codes).map Prod.fst).Nodup := by
    intro rs
    induction rs with
    | nil => intro st hst; exact hst
    | cons r rest ihh =>
      intro st hst
      rw [List.foldl_cons]
      exact ihh _ (keysNodup_foldRow st r hst)
  refine ⟨hkeys rows initState (by simp [initState]), ?_, ?_⟩
  · rw [parse_logs, h1]
    simp [initState]
  · intro sv hsv
    rw [parse_logs] at hsv
    rcases h2 sv hsv with ⟨sv₀, hl0, _⟩ | ⟨_, r₀, htr, hname⟩
    · simp [initState] at hl0
    · exact ⟨r₀, htr, hname⟩

/-- A concrete instance of `C4_per_tenant` at the counterexample input. -/
theorem C4_per_tenant_witness :
    ((parse_logs [c4rowA, c4rowB]).hotel_codes.map Prod.fst).Nodup ∧
    (((parse_logs [c4rowA, c4rowB]).hotel_codes.lookup "H1").isSome ↔
      (firstTrigger [c4rowA, c4rowB] "H1").isSome) ∧
    (∀ sv, (parse_logs [c4rowA, c4rowB]).hotel_codes.lookup "H1" = some sv →
      ∃ r₀, firstTrigger [c4rowA, c4rowB] "H1" = some r₀ ∧ sv.name = r₀.service) :=
  C4_per_tenant [c4rowA, c4rowB] "H1"

/-! ## Claim C7 -/

theorem resolveServiceApi_stop (ms : List DMsg) (s a : String)
    (hs : s ≠ "") (ha : a ≠ "") : resolveServiceApi ms s a = (s, a) := by
  cases ms with
  | nil => rfl
  | cons m rest =>
    rw [resolveServiceApi, if_pos ⟨hs, ha⟩]

theorem resolveServiceApi_cons_unset (m : DMsg) (rest : List DMsg) :
    resolveServiceApi (m :: rest) "" "" =
      resolveServiceApi rest
        (if truthyOpt m.service then pickService (m.service.getD "") else "")
        (if truthyOpt m.callingFunction then pickApi (m.callingFunction.getD "") else "") := by
  rw [resolveServiceApi]
  simp

/-- C7: scanning a trace whose first event carries
`calling_function = "sabre-room-rate-adapter.GetRoomRate"` while both fields
are unresolved resolves `service = "sabre"` (via the payload extractor's
substring scan, `deriveService`) and `operation = "GetRoomRate"` from that
single event, whatever follows in the trace; once both fields are resolved
the scan stops (further events cannot change the result); and a trace that
ends leaves still-unresolved fields at the empty string. -/
theorem C7_resolution (t : Nat) (mt : String) (rest : List DMsg) (s a : String)
    (hs : s ≠ "") (ha : a ≠ "") :
    deriveService (some "sabre-room-rate-adapter.GetRoomRate") = some "sabre" ∧
    resolveServiceApi
      ({ time := t
         service := deriveService (some "sabre-room-rate-adapter.GetRoomRate")
         messageType := mt
         callingFunction := some "sabre-room-rate-adapter.GetRoomRate" } :: rest)
      "" "" = ("sabre", "GetRoomRate") ∧
    (∀ ms : List DMsg, resolveServiceApi ms s a = (s, a)) ∧
    resolveServiceApi [] s a = (s, a) := by
  refine ⟨by decide, ?_, fun ms => resolveServiceApi_stop ms s a hs ha, rfl⟩
  rw [resolveServiceApi_cons_unset]
  have h1 : (if truthyOpt (deriveService (some "sabre-room-rate-adapter.GetRoomRate"))
      then pickService ((deriveService (some "sabre-room-rate-adapter.GetRoomRate")).getD "")
      else "") = "sabre" := by decide
  have h2 : (if truthyOpt (some "sabre-room-rate-adapter.GetRoomRate")
      then pickApi ((some "sabre-room-rate-adapter.GetRoomRate").getD "")
      else "") = "GetRoomRate" := by decide
  dsimp only
  rw [h1, h2]
  exact resolveServiceApi_stop rest "sabre" "GetRoomRate" (by decide) (by decide)

/-- A concrete instance of `C7_resolution`. -/
theorem C7_resolution_witness :
    deriveService (some "sabre-room-rate-adapter.GetRoomRate") = some "sabre" ∧
    resolveServiceApi
      [{ time := 3
         service := deriveService (some "sabre-room-rate-adapter.GetRoomRate")
         messageType := "INFO"
         callingFunction := some "sabre-room-rate-adapter.GetRoomRate" }]
      "" "" = ("sabre", "GetRoomRate") ∧
    (∀ ms : List DMsg, resolveServiceApi ms "windsurfer" "GetAddons" =
      ("windsurfer", "GetAddons")) ∧
    resolveServiceApi [] "windsurfer" "GetAddons" = ("windsurfer", "GetAddons") :=
  C7_resolution 3 "INFO" [] "windsurfer" "GetAddons" (by decide) (by decide)

/-! ## Claim C8 -/

theorem lkg_self {β : Type} (k : String) (v : β) (l : List (String × β)) :
    ((k, v) :: l).lookup k = some v := by
  simp [List.lookup]

theorem lkg_ne {β : Type} (k k' : String) (v : β) (l : List (String × β))
    (h : k' ≠ k) : ((k, v) :: l).lookup k' = l.lookup k' := by
  have hb : (k' == k) = false := beq_eq_false_iff_ne.mpr h
  simp [List.lookup, hb]

theorem addToGroup_lookup_self (acc : List (String × List CwLog)) (u : String)
    (l : CwLog) :
    (addToGroup acc u l).lookup u = some ((acc.lookup u).getD [] ++ [l]) := by
  induction acc with
  | nil => simp [addToGroup, lkg_self]
  | cons p rest ih =>
    obtain ⟨k, ls⟩ := p
    rw [addToGroup]
    by_cases hk : k = u
    · subst hk
      rw [if_pos rfl, lkg_self, lkg_self]
      rfl
    · rw [if_neg hk, lkg_ne _ _ _ _ (Ne.symm hk), lkg_ne _ _ _ _ (Ne.symm hk), ih]

theorem addToGroup_lookup_ne (acc : List (String × List CwLog)) (u u' : String)
    (l : CwLog) (h : u' ≠ u) :
    (addToGroup acc u l).lookup u' = acc.lookup u' := by
  induction acc with
  | nil => simp [addToGroup, lkg_ne _ _ _ _ h]
  | cons p rest ih =>
    obtain ⟨k, ls⟩ := p
    rw [addToGroup]
    by_cases hk : k = u
    · subst hk
      rw [if_pos rfl, lkg_ne _ _ _ _ h, lkg_ne _ _ _ _ h]
    · by_cases hk' : u' = k
      · subst hk'
        rw [if_neg hk, lkg_self, lkg_self]
      · rw [if_neg hk, lkg_ne _ _ _ _ hk', lkg_ne _ _ _ _ hk', ih]

theorem groupFold_lookup (logs : List CwLog) :
    ∀ (acc : List (String × List CwLog)) (u : String),
    (logs.foldl (fun acc l =>
        match uuidKey l with
        | none => acc
        | some u' => addToGroup acc u' l) acc).lookup u =
      (match acc.lookup u with
       | some ls => some (ls ++ tracesOf u logs)
       | none => if tracesOf u logs = [] then none else some (tracesOf u logs)) := by
  induction logs with
  | nil =>
    intro acc u
    rw [List.foldl_nil]
    cases h : acc.lookup u with
    | some ls => simp [tracesOf]
    | none => simp [tracesOf]
  | cons l rest ih =>
    intro acc u
    rw [List.foldl_cons]
    cases hu : uuidKey l with
    | none =>
      have hpred : (uuidKey l == some u) = false := by
        rw [hu]
        rfl
      rw [ih acc u]
      simp only [tracesOf, List.filter_cons, hpred]
      rfl
    | some u' =>
      by_cases huu : u' = u
      · subst huu
        have hpred : (uuidKey l == some u') = true := by
          rw [hu, beq_self_eq_true]
        rw [ih (addToGroup acc u' l) u', addToGroup_lookup_self]
        simp only [tracesOf, List.filter_cons, hpred]
        cases h : acc.lookup u' with
        | some ls => simp
        | none => simp
      · have hpred : (uuidKey l == some u) = false := by
          rw [hu]
          exact beq_eq_false_iff_ne.mpr (fun he => huu (Option.some.inj he))
        rw [ih (addToGroup acc u' l) u, addToGroup_lookup_ne acc u' u l (fun he => huu he.symm)]
        simp only [tracesOf, List.filter_cons, hpred]
        rfl

theorem groupFold_entries (logs : List CwLog) :
    ∀ (acc : List (String × List CwLog)),
    (∀ p ∈ acc, ∀ l ∈ p.2, uuidKey l = some p.1) →
    ∀ p ∈ (logs.foldl (fun acc l =>
        match uuidKey l with
        | none => acc
        | some u' => addToGroup acc u' l) acc),
      ∀ l ∈ p.2, uuidKey l = some p.1 := by
  have haddinv : ∀ (acc : List (String × List CwLog)) (u : String) (l : CwLog),
      uuidKey l = some u →
      (∀ p ∈ acc, ∀ l' ∈ p.2, uuidKey l' = some p.1) →
      ∀ p ∈ addToGroup acc u l, ∀ l' ∈ p.2, uuidKey l' = some p.1 := by
    intro acc
    induction acc with
    | nil =>
      intro u l hu _ p hp l' hl'
      simp only [addToGroup, List.mem_singleton] at hp
      subst hp
      simp only [List.mem_singleton] at hl'
      subst hl'
      exact hu
    | cons q rest ih =>
      intro u l hu hinv p hp l' hl'
      obtain ⟨k, ls⟩ := q
      rw [addToGroup] at hp
      by_cases hk : k = u
      · rw [if_pos hk] at hp
        rcases List.mem_cons.mp hp with hh | hh
        · subst hh
          simp only at hl'
          rcases List.mem_append.mp hl' with hm | hm
          · exact hinv (k, ls) (List.mem_cons_self _ _) l' hm
          · rw [List.mem_singleton.mp hm, hu, hk]
        · exact hinv _ (List.mem_cons_of_mem _ hh) l' hl'
      · rw [if_neg hk] at hp
        rcases List.mem_cons.mp hp with hh | hh
        · subst hh
          exact hinv _ (List.mem_cons_self _ _) l' hl'
        · exact ih u l hu (fun p' hp' => hinv _ (List.mem_cons_of_mem _ hp')) p hh l' hl'
  induction logs with
  | nil =>
    intro acc hinv
    rw [List.foldl_nil]
    exact hinv
  | cons l rest ih =>
    intro acc hinv
    rw [List.foldl_cons]
    cases hu : uuidKey l with
    | none => exact ih acc hinv
    | some u' => exact ih _ (haddinv acc u' l hu hinv)

/-- C8: the Trace Correlator yields, for each correlation id, exactly the
input events bearing that id in arrival order (never re-sorted by
timestamp), and an event with an empty or missing correlation id appears in
no trace. -/
theorem C8_grouping (logs : List CwLog) (u : String) :
    (groupLogs logs).lookup u =
      (if tracesOf u logs = [] then none else some (tracesOf u logs)) ∧
    (∀ l ∈ logs, uuidKey l = none → ∀ p ∈ groupLogs logs, l ∉ p.2) := by
  constructor
  · rw [groupLogs, groupFold_lookup logs [] u]
    rfl
  · intro l _ hnone p hp hmem
    have := groupFold_entries logs [] (by intro p hp; simp at hp) p hp l hmem
    rw [hnone] at this
    cases this

/-- A concrete instance of `C8_grouping`: events fed in arrival order
`[cwE1 (t=5), cwE2 (t=1)]` plus an id-less event produce the trace
`[cwE1, cwE2]` for id `A` — arrival order, not time order — and the id-less
event `cwE3` lies in no trace. -/
theorem C8_grouping_witness :
    (groupLogs [cwE1, cwE2, cwE3]).lookup "A" = some [cwE1, cwE2] ∧
    (∀ p ∈ groupLogs [cwE1, cwE2, cwE3], cwE3 ∉ p.2) := by
  constructor
  · rw [(C8_grouping [cwE1, cwE2, cwE3] "A").1]
    decide
  · intro p hp
    exact (C8_grouping [cwE1, cwE2, cwE3] "A").2 cwE3 (by decide) (by decide) p hp

/-! ## Claim C9 -/

theorem traceScanAux_lat (ls : List CwLog) :
    ∀ (lat : String) (hc : Option PyLit) (lat' : String) (hc' : Option PyLit),
      traceScanAux ls lat hc = Except.ok (lat', hc') → lat' = pureLatFold lat ls := by
  induction ls with
  | nil =>
    intro lat hc lat' hc' h
    rw [traceScanAux] at h
    cases h
    rfl
  | cons l rest ih =>
    intro lat hc lat' hc' h
    simp only [traceScanAux] at h
    rw [pureLatFold, List.foldl_cons]
    by_cases hg : strContains l.msgText "GRPC Request" = true
    · rw [if_pos hg] at h
      cases hx : extract_hotel_code_from_log l.msgText with
      | error e =>
        rw [hx] at h
        dsimp only at h
        cases h
      | ok hc2 =>
        rw [hx] at h
        dsimp only at h
        exact ih _ _ _ _ h
    · rw [if_neg hg] at h
      exact ih _ _ _ _ h

theorem pureLatFold_getLast (ls : List CwLog) :
    ∀ a : String, pureLatFold a ls = ((ls.filterMap latView).getLast?).getD a := by
  induction ls with
  | nil => intro a; rfl
  | cons l rest ih =>
    intro a
    rw [pureLatFold, List.foldl_cons, List.filterMap_cons]
    cases hv : latView l with
    | none =>
      dsimp only
      have h2 := ih a
      rw [pureLatFold] at h2
      exact h2
    | some v =>
      dsimp only
      rw [List.getLast?_cons]
      have h2 := ih v
      rw [pureLatFold] at h2
      exact h2

/-- C9: when the per-trace scan succeeds, the resulting `end_to_end_latency`
is the value extracted from the LAST latency-bearing event of the trace
(last-write-wins): for every trace with at least two latency-bearing events,
the scan's latency equals the last entry of the trace's latency views. -/
theorem C9_last_latency (logs : List CwLog) (lat : String) (hc : Option PyLit)
    (hok : traceScan logs = Except.ok (lat, hc))
    (h2 : 2 ≤ (logs.filterMap latView).length) :
    (logs.filterMap latView).getLast? = some lat := by
  have hlat : lat = pureLatFold "0" logs :=
    traceScanAux_lat logs "0" (some (PyLit.pstr "0")) lat hc hok
  rw [pureLatFold_getLast logs "0"] at hlat
  cases hgl : (logs.filterMap latView).getLast? with
  | none =>
    rw [List.getLast?_eq_none_iff] at hgl
    rw [hgl] at h2
    simp at h2
  | some v =>
    rw [hgl] at hlat
    rw [hlat]
    rfl

/-- A concrete instance of `C9_last_latency`: a trace whose two
latency-bearing events yield `"2.0"` then `"4.5"` classifies to latency
`"4.5"`. -/
theorem C9_last_latency_witness :
    ([cwE1, cwE2].filterMap latView).getLast? = some "4.5" ∧
    traceScan [cwE1, cwE2] = Except.ok ("4.5", some (PyLit.pstr "0")) ∧
    2 ≤ ([cwE1, cwE2].filterMap latView).length :=
  ⟨C9_last_latency [cwE1, cwE2] "4.5" (some (PyLit.pstr "0")) rfl (by decide),
   rfl, by decide⟩

/-! ## Claim C2 -/

/-- C2 counterexample: a trace whose single event's message text contains
`"GRPC Request"` followed by an unbalanced embedded object makes
`get_log_stats` RAISE (the `ValueError` of `extract_hotel_code_from_log`
propagates — the extraction call sits outside the `try/except`), aborting
classification of the whole batch instead of leaving the tenant id null. -/
theorem C2_counterexample :
    get_log_stats [c2badLog] =
      Except.error ("Mismatched curly braces for content: " ++ c2badLog.msgText) := by
  rfl

/-- C2 (amended): a malformed embedded object (unbalanced braces or a
literal-parse failure) in a GRPC-request line ABORTS trace classification:
for a trace consisting of such an event, `get_log_stats` propagates the
extraction error for the whole call, producing no records at all. -/
theorem C2_malformed_aborts (l : CwLog) (u : String) (e : String)
    (hu : uuidKey l = some u)
    (hg : strContains l.msgText "GRPC Request" = true)
    (he : extract_hotel_code_from_log l.msgText = Except.error e) :
    get_log_stats [l] = Except.error e := by
  have hgroup : groupLogs [l] = [(u, [l])] := by
    simp [groupLogs, hu, addToGroup]
  rw [get_log_stats, hgroup]
  have hscan : traceScan [l] = Except.error e := by
    simp only [traceScan, traceScanAux]
    rw [if_pos hg, he]
  simp [hscan]

/-- A concrete instance of `C2_malformed_aborts`, with the other malformed
shape: balanced braces around content that is not a valid literal. -/
theorem C2_malformed_aborts_witness :
    uuidKey c2badLog2 = some "A" ∧
    strContains c2badLog2.msgText "GRPC Request" = true ∧
    extract_hotel_code_from_log c2badLog2.msgText =
      Except.error "malformed literal" ∧
    get_log_stats [c2badLog2] = Except.error "malformed literal" :=
  ⟨rfl, rfl, rfl, C2_malformed_aborts c2badLog2 "A" "malformed literal" rfl rfl rfl⟩

/-! ## Claim C3 -/

/-- C3 counterexample: the pipe-variant extractor does NOT implement the
claimed behaviour — (i) on a nested object literal (`c3nested`) the scan
raises (it literal-parses the accumulated text at the inner closing brace,
where it is not a complete literal) instead of parsing the whole literal to
obtain `request_uuid`; (ii) when no object literal occurs before the text
runs out (`c3plain`) it returns an empty `request_uuid` without raising,
instead of raising a malformed-message error. -/
theorem C3_counterexample :
    parse_formatted_message c3nested = Except.error "malformed literal" ∧
    parse_formatted_message c3plain =
      Except.ok { request_uuid := PyLit.pstr "", service := "svc", message := "" } := by
  constructor <;> rfl

/-- C3 (amended): the extractor tracks brace depth with a counter but
attempts a literal parse of the accumulated text at EVERY closing brace, so
it succeeds exactly on a flat (unnested) object literal, from which it reads
`request_uuid` (either key spelling); a nested object literal raises a
malformed-message error at the first inner closing brace; and when no
opening brace occurs before the text runs out, the scan ends quietly with an
empty `request_uuid` rather than raising. -/
theorem C3_literal_scan (cs : List Char) (hnb : ¬ cs.contains '{' = true) :
    pfmLoop cs 0 [] = Except.ok (PyLit.pstr "", "") ∧
    parse_formatted_message c3flat =
      Except.ok { request_uuid := PyLit.pstr "abc", service := "svc",
                  message := " Took 2s" } ∧
    parse_formatted_message c3nested = Except.error "malformed literal" := by
  refine ⟨?_, rfl, rfl⟩
  induction cs with
  | nil => rfl
  | cons c rest ih =>
    rw [List.contains_cons] at hnb
    simp only [Bool.or_eq_true, not_or] at hnb
    obtain ⟨h1, h2⟩ := hnb
    have hcne : c ≠ '{' := by
      intro he
      exact h1 (by rw [he, beq_self_eq_true])
    rw [pfmLoop, if_pos ⟨rfl, hcne⟩]
    exact ih h2

/-- A concrete instance of `C3_literal_scan`. -/
theorem C3_literal_scan_witness :
    ¬ ("-x Took 2s".data.contains '{' = true) ∧
    (pfmLoop ("-x Took 2s".data) 0 [] = Except.ok (PyLit.pstr "", "") ∧
     parse_formatted_message c3flat =
       Except.ok { request_uuid := PyLit.pstr "abc", service := "svc",
                   message := " Took 2s" } ∧
     parse_formatted_message c3nested = Except.error "malformed literal") :=
  ⟨by decide, C3_literal_scan ("-x Took 2s".data) (by decide)⟩
